import Mathlib

/-!
# CreateThumbnail: a shallow embedding of `src/CreateThumbnail/index.js`

The handler is a callback pipeline (`async.waterfall`) over external
collaborators (object storage, a conversion Lambda, ffmpeg, the image
library, the local file system).  The embedding keeps the control flow of
the source and replaces every collaborator call by a field of `Env` that
gives the call's result; each call is recorded in a trace of `Effect`s, in
program order.  A stage is a function that returns the trace of everything
that happens from that stage on, so calling `next` in the source is calling
the next stage's function here.

Conventions.
* Strings are lists of characters (`Str`).
* The handler's `srcKey` argument is the key after
  `decodeURIComponent(event.key.replace(/\+/g, " "))`.
* `toLowerCase` is the ASCII case mapping.  No character outside ASCII
  lower-cases to a string that occurs in the extension table, so the
  classification agrees with the Unicode mapping of the source.
* `console.log` / `console.error` calls are not recorded, except the one in
  the `catch` block of the final callback.
* Widths and heights are natural numbers (pixels); the scaling arithmetic is
  done in `ℚ`, the exact counterpart of the source's floating point.
-/

namespace CreateThumbnail

abbrev Str := List Char

abbrev Err := Str

/-! ## Constants (lines 16-19, 65-66) -/

def MAX_WIDTH : Nat := 200
def MAX_HEIGHT : Nat := 200
def MAX_SIZE : Nat := 30 * 1024 * 1024
def THUMB_EXT : Str := "png".toList
def tmpDir : Str := "/tmp/".toList
def scratch : Str := "scratch/".toList

/-! ## File type inference (lines 70-104) -/

inductive FileType where
  | image
  | video
  | pdf
  | office
  deriving DecidableEq, Repr

/-- The capture group of `srcKey.match(/\.([^.]*)$/)`: the characters after
the last `'.'`, or `none` when the key has no `'.'` (the match fails). -/
def typeMatch (srcKey : Str) : Option Str :=
  if '.' ∈ srcKey then
    some (srcKey.reverse.takeWhile (fun c => c != '.')).reverse
  else
    none

/-- The method `String.prototype.toLowerCase`, on ASCII letters. -/
def toLowerCase (s : Str) : Str := s.map Char.toLower

/-- The `switch (fileExt)` of lines 80-104; `none` is the `default:` case. -/
def fileTypeOfExt (fileExt : Str) : Option FileType :=
  if fileExt = "jpg".toList then some FileType.image
  else if fileExt = "png".toList then some FileType.image
  else if fileExt = "tif".toList then some FileType.image
  else if fileExt = "mp4".toList then some FileType.video
  else if fileExt = "wav".toList then some FileType.video
  else if fileExt = "m4v".toList then some FileType.video
  else if fileExt = "pdf".toList then some FileType.pdf
  else if fileExt = "doc".toList then some FileType.office
  else if fileExt = "ppt".toList then some FileType.office
  else if fileExt = "docx".toList then some FileType.office
  else if fileExt = "pptx".toList then some FileType.office
  else none

/-- Lines 71-104 as one function: the file type the handler goes on with, or
`none` when it returns early (no match, or the `default:` case). -/
def inferFileType (srcKey : Str) : Option FileType :=
  match typeMatch srcKey with
  | none => none
  | some m => fileTypeOfExt (toLowerCase m)

/-! ## Values exchanged with the collaborators -/

/-- The `size` object of `gm(path).size(callback)`. -/
structure Size where
  width : Nat
  height : Nat
  deriving DecidableEq, Repr

/-- The value of the `Range` request header `bytes=first-last`.  Both
positions are byte offsets and both are inclusive (HTTP byte ranges). -/
structure ByteRange where
  first : Nat
  last : Nat
  deriving DecidableEq, Repr

/-- Number of bytes a range `bytes=first-last` selects from an object that
is at least `last + 1` bytes long. -/
def ByteRange.length (r : ByteRange) : Nat := r.last + 1 - r.first

/-- Whether byte offset `i` is selected by the range. -/
def ByteRange.contains (r : ByteRange) (i : Nat) : Bool :=
  decide (r.first ≤ i) && decide (i ≤ r.last)

/-- How a call of `download` (lines 44-56) ends.  Only the local write
stream has listeners: its `'close'` calls `callback()` and its `'error'`
calls `callback(err)`.  The read stream of `s3.getObject` has no `'error'`
listener, so a failed read is thrown uncaught and the callback never runs. -/
inductive Download where
  | close
  | writeError (err : Err)
  | readError (err : Err)
  deriving DecidableEq, Repr

/-- The objects handed to `context.done`: `returnObj` (line 68) and the
literal of lines 128-131.  An absent property is `none`. -/
structure ReturnObj where
  width : Option Nat
  height : Option Nat
  fileType : Option Str
  buffer : Option Str
  deriving DecidableEq, Repr

/-- The initial `returnObj = { }`. -/
def ReturnObj.empty : ReturnObj :=
  { width := none, height := none, fileType := none, buffer := none }

/-- Results of the collaborator calls.  An `Option Err` is the `err`
argument a callback receives (`none` for a call that succeeded). -/
structure Env where
  /-- Result of `s3.getBucketLocation`: the `LocationConstraint` -/
  getBucketLocation : (bucket : Str) → Except Err Str
  /-- Result of `s3.headObject`: the `ContentLength` -/
  headObject : (region bucket key : Str) → Except Err Nat
  /-- Result of `download` (lines 44-56) -/
  download : (region bucket key downloadPath : Str) → Option ByteRange → Download
  /-- Result of `gm(path).size` -/
  gmSize : (path : Str) → Except Err Size
  /-- Result of `lambda.invoke` of `PdfHandler`: the `key` of the parsed payload -/
  lambdaInvoke : (bucket key destination : Str) → Except Err Str
  /-- Result of `exec('./binaries/ffmpeg', ...)` -/
  ffmpeg : (origFile out : Str) → Option Err
  /-- Result of `gm(origFile + "[0]")...write(out, next)` -/
  gmWrite : (input out : Str) → Option Err
  /-- Result of `fs.unlink` -/
  unlink : (path : Str) → Option Err
  /-- Result of `this.resize(width, height).toBuffer(THUMB_EXT, ...)` -/
  toBuffer : (path : Str) → (width height : ℚ) → Except Err Str
  /-- Result of `fs.unlinkSync`: the exception it throws, if any -/
  unlinkSync : (path : Str) → Option Err
  /-- Result of `buffer.toString('base64')` -/
  base64 : Str → Str

/-- One observable action of the handler. -/
inductive Effect where
  | getBucketLocation (bucket : Str)
  | headObject (bucket key : Str)
  | download (bucket key downloadPath : Str) (range : Option ByteRange)
  | gmSize (path : Str)
  | lambdaInvoke (bucket key destination : Str)
  | ffmpeg (origFile out : Str)
  | gmWrite (input out : Str)
  | unlink (path : Str)
  | resize (path : Str) (width height : ℚ)
  | unlinkSync (path : Str)
  | logCouldntDelete (path : Str)
  | done (err : Option Err) (result : Option ReturnObj)
  | throw
  deriving DecidableEq

/-- How a request ends, as the caller sees it. -/
inductive Outcome where
  /-- No call of `context.done`: no response and no error -/
  | silent
  /-- The first `context.done(err, result)` -/
  | done (err : Option Err) (result : Option ReturnObj)
  /-- An exception nobody catches -/
  | crash
  deriving DecidableEq

/-- The outcome of a trace: its first `context.done` or uncaught exception. -/
def outcome : List Effect → Outcome
  | [] => Outcome.silent
  | Effect.done err result :: _ => Outcome.done err result
  | Effect.throw :: _ => Outcome.crash
  | _ :: rest => outcome rest

/-! ## The pipeline (lines 106-252), last stage first -/

/-- The final callback of the outer waterfall (lines 241-251). -/
def finalCallback (env : Env) (returnObj : ReturnObj) (downloadPath : Option Str) :
    Except Err Str → List Effect
  | Except.error err => [Effect.done (some err) none]
  | Except.ok buffer =>
    (match downloadPath with
      | some p =>
        Effect.unlinkSync p ::
          (match env.unlinkSync p with
            | none => []
            | some _ => [Effect.logCouldntDelete p])
      | none => []) ++
    [Effect.done none (some { returnObj with
        fileType := some THUMB_EXT, buffer := some (env.base64 buffer) })]

/-- Lines 221-224. -/
def scalingFactor (size : Size) : ℚ :=
  min ((MAX_WIDTH : ℚ) / (size.width : ℚ)) ((MAX_HEIGHT : ℚ) / (size.height : ℚ))

/-- Line 229: the width passed to `resize`. -/
def thumbWidth (size : Size) : ℚ := scalingFactor size * (size.width : ℚ)

/-- Line 230: the height passed to `resize`. -/
def thumbHeight (size : Size) : ℚ := scalingFactor size * (size.height : ℚ)

/-- Lines 225-228: `returnObj` after the `if (fileType == 'image')`. -/
def recordSize (fileType : FileType) (size : Size) : ReturnObj :=
  if fileType = FileType.image then
    { ReturnObj.empty with width := some size.width, height := some size.height }
  else ReturnObj.empty

/-- Stage `transform` (lines 217-240).  When `gm(...).size` fails, `size` is
undefined and reading `size.width` throws. -/
def transform (env : Env) (fileType : FileType) (downloadPath : Str) : List Effect :=
  Effect.gmSize downloadPath ::
    match env.gmSize downloadPath with
    | Except.error _ => [Effect.throw]
    | Except.ok size =>
      Effect.resize downloadPath (thumbWidth size) (thumbHeight size) ::
        finalCallback env (recordSize fileType size) (some downloadPath)
          (env.toBuffer downloadPath (thumbWidth size) (thumbHeight size))

/-- The final callback of the inner waterfall (lines 207-214).  Its `next`
is the one of `preProcess`; with an `origFile` it is handed to `fs.unlink`,
so the outer pipeline receives the result of the deletion. -/
def preProcessDone (env : Env) (fileType : FileType) (downloadPath : Str)
    (origFile : Option Str) (err : Option Err) : List Effect :=
  match origFile with
  | some f =>
    Effect.unlink f ::
      match env.unlink f with
      | some e => finalCallback env ReturnObj.empty (some downloadPath) (Except.error e)
      | none => transform env fileType downloadPath
  | none =>
    match err with
    | some e => finalCallback env ReturnObj.empty (some downloadPath) (Except.error e)
    | none => transform env fileType downloadPath

/-- Inner stage `pdfToImage` (lines 193-206). -/
def pdfToImage (env : Env) (fileType : FileType) (downloadPath : Str)
    (origFile : Option Str) : List Effect :=
  if fileType ≠ FileType.pdf then preProcessDone env fileType downloadPath origFile none
  else
    let origFile' := downloadPath
    let downloadPath' := downloadPath ++ ".".toList ++ THUMB_EXT
    Effect.gmWrite (origFile' ++ "[0]".toList) downloadPath' ::
      preProcessDone env fileType downloadPath' (some origFile')
        (env.gmWrite (origFile' ++ "[0]".toList) downloadPath')

/-- Inner stage `videoToImage` (lines 177-191); an error skips `pdfToImage`. -/
def videoToImage (env : Env) (fileType : FileType) (downloadPath : Str) : List Effect :=
  if fileType ≠ FileType.video then pdfToImage env fileType downloadPath none
  else
    let origFile := downloadPath
    let downloadPath' := downloadPath ++ ".".toList ++ THUMB_EXT
    Effect.ffmpeg origFile downloadPath' ::
      match env.ffmpeg origFile downloadPath' with
      | some e => preProcessDone env fileType downloadPath' (some origFile) (some e)
      | none => pdfToImage env fileType downloadPath' (some origFile)

/-- Stage `preProcess` (lines 173-215). -/
def preProcess (env : Env) (fileType : FileType) (downloadPath : Str) : List Effect :=
  videoToImage env fileType downloadPath

/-- The value of `srcKey.replace(/\//g, '-')`. -/
def replaceSlashes (srcKey : Str) : Str :=
  srcKey.map (fun c => if c = '/' then '-' else c)

/-- Lines 120 and 170: `tmpDir + srcKey.replace(/\//g,'-')`. -/
def localPath (srcKey : Str) : Str := tmpDir ++ replaceSlashes srcKey

/-- Stage `downloadFile` (lines 169-172). -/
def downloadFile (env : Env) (region bucket srcKey : Str) (fileType : FileType) :
    List Effect :=
  let downloadPath := localPath srcKey
  Effect.download bucket srcKey downloadPath none ::
    match env.download region bucket srcKey downloadPath none with
    | Download.readError _ => [Effect.throw]
    | Download.writeError err =>
      finalCallback env ReturnObj.empty (some downloadPath) (Except.error err)
    | Download.close => preProcess env fileType downloadPath

/-- Line 155: the `destination` sent to the conversion Lambda. -/
def destination (random : Str) : Str :=
  scratch ++ "pdf/".toList ++ random ++ "/".toList

/-- Stage `officeToPdf` (lines 144-167).  When the invocation fails, `data`
is null and reading `data.Payload` throws before `next` is reached. -/
def officeToPdf (env : Env) (random region bucket srcKey : Str) (fileType : FileType) :
    List Effect :=
  if fileType ≠ FileType.office then downloadFile env region bucket srcKey fileType
  else
    Effect.lambdaInvoke bucket srcKey (destination random) ::
      match env.lambdaInvoke bucket srcKey (destination random) with
      | Except.error _ => [Effect.throw]
      | Except.ok respKey => downloadFile env region bucket respKey FileType.pdf

/-- Line 121: `'bytes=0-102400'`. -/
def partialRange : ByteRange := { first := 0, last := 102400 }

/-- Lines 125-132: the size read after the ranged download.  When the read
fails, `size` is undefined and building the result throws. -/
def readDimensions (env : Env) (downloadPath : Str) : List Effect :=
  Effect.gmSize downloadPath ::
    match env.gmSize downloadPath with
    | Except.error _ => [Effect.throw]
    | Except.ok size =>
      [Effect.done none (some { ReturnObj.empty with
          width := some size.width, height := some size.height })]

/-- The oversized-image branch of `checkSize` (lines 119-133).  There is no
`return` after `context.done(err)`, so the size is read in either case in
which the callback runs. -/
def dimensionsOnly (env : Env) (region bucket srcKey : Str) : List Effect :=
  let downloadPath := localPath srcKey
  Effect.download bucket srcKey downloadPath (some partialRange) ::
    match env.download region bucket srcKey downloadPath (some partialRange) with
    | Download.readError _ => [Effect.throw]
    | Download.writeError err =>
      Effect.done (some err) none :: readDimensions env downloadPath
    | Download.close => readDimensions env downloadPath

/-- Stage `checkSize` (lines 110-142). -/
def checkSize (env : Env) (random region bucket srcKey : Str) (fileType : FileType) :
    List Effect :=
  Effect.headObject bucket srcKey ::
    match env.headObject region bucket srcKey with
    | Except.error err => finalCallback env ReturnObj.empty none (Except.error err)
    | Except.ok contentLength =>
      if contentLength > MAX_SIZE then
        if fileType = FileType.image then dimensionsOnly env region bucket srcKey
        else []
      else officeToPdf env random region bucket srcKey fileType

/-- Stage `getRegion` (lines 107-109). -/
def getRegion (env : Env) (random bucket srcKey : Str) (fileType : FileType) :
    List Effect :=
  Effect.getBucketLocation bucket ::
    match env.getBucketLocation bucket with
    | Except.error err => finalCallback env ReturnObj.empty none (Except.error err)
    | Except.ok region => checkSize env random region bucket srcKey fileType

/-- The function `exports.handler` (lines 58-253): the trace of one request.  `random` is
the value `require('node-uuid').v4()` returns for it. -/
def handler (env : Env) (random bucket srcKey : Str) : List Effect :=
  match inferFileType srcKey with
  | none => []
  | some fileType => getRegion env random bucket srcKey fileType

/-! ## Sample environments and the extension table, used in the statements -/

/-- Every collaborator call succeeds: the object is `contentLength` bytes
long, every image read has the given `size`, the conversion Lambda answers
with a key under the destination it was given. -/
def Env.allOk (contentLength : Nat) (size : Size) : Env where
  getBucketLocation := fun _ => Except.ok "eu-west-1".toList
  headObject := fun _ _ _ => Except.ok contentLength
  download := fun _ _ _ _ _ => Download.close
  gmSize := fun _ => Except.ok size
  lambdaInvoke := fun _ _ destination => Except.ok (destination ++ "out.pdf".toList)
  ffmpeg := fun _ _ => none
  gmWrite := fun _ _ => none
  unlink := fun _ => none
  toBuffer := fun _ _ _ => Except.ok "PNG-BYTES".toList
  unlinkSync := fun _ => none
  base64 := fun buffer => "base64:".toList ++ buffer

/-- The extensions that have a `case` in the `switch` of lines 80-100. -/
def knownExts : List Str :=
  ["jpg".toList, "png".toList, "tif".toList, "mp4".toList, "wav".toList, "m4v".toList,
   "pdf".toList, "doc".toList, "ppt".toList, "docx".toList, "pptx".toList]

/-- The environment `env`, except that every download fails with the local
write error `err`. -/
def Env.failDownload (env : Env) (err : Err) : Env :=
  { env with download := fun _ _ _ _ _ => Download.writeError err }

/-- The environment `env`, except that ffmpeg fails with `err`. -/
def Env.failFfmpeg (env : Env) (err : Err) : Env :=
  { env with ffmpeg := fun _ _ => some err }

/-- The environment `env`, except that the PDF rasterization fails with `err`. -/
def Env.failGmWrite (env : Env) (err : Err) : Env :=
  { env with gmWrite := fun _ _ => some err }

/-- The environment `env`, except that reading an image size fails with `err`. -/
def Env.failGmSize (env : Env) (err : Err) : Env :=
  { env with gmSize := fun _ => Except.error err }

/-- The environment `env`, except that `fs.unlink` fails with `err`. -/
def Env.failUnlink (env : Env) (err : Err) : Env :=
  { env with unlink := fun _ => some err }

/-- The environment `env`, except that `fs.unlinkSync` throws `err`. -/
def Env.failUnlinkSync (env : Env) (err : Err) : Env :=
  { env with unlinkSync := fun _ => some err }

/-- The environment `env`, except that resize/encode fails with `err`. -/
def Env.failToBuffer (env : Env) (err : Err) : Env :=
  { env with toBuffer := fun _ _ _ => Except.error err }

/-- The local files a trace writes: the download target and the output of
ffmpeg or of the PDF rasterization. -/
def writtenPaths : List Effect → List Str
  | [] => []
  | Effect.download _ _ downloadPath _ :: rest => downloadPath :: writtenPaths rest
  | Effect.ffmpeg _ out :: rest => out :: writtenPaths rest
  | Effect.gmWrite _ out :: rest => out :: writtenPaths rest
  | _ :: rest => writtenPaths rest

/-- A trace that ends in an error has no result and no `fs.unlinkSync`. -/
def ErrorSkipsCleanup (t : List Effect) : Prop :=
  ∀ err result, outcome t = Outcome.done (some err) result →
    result = none ∧ ∀ p, Effect.unlinkSync p ∉ t

/-- A trace whose result, if it has one, has no `width` and no `height`. -/
def NoDims (t : List Effect) : Prop :=
  ∀ obj, outcome t = Outcome.done none (some obj) → obj.width = none ∧ obj.height = none

/-! ## Lemmas on the file type inference -/

theorem takeWhile_append_stop {α : Type} (p : α → Bool) (a : α) :
    ∀ (l rest : List α), (∀ c ∈ l, p c = true) → p a = false →
      List.takeWhile p (l ++ a :: rest) = l
  | [], rest, _, ha => by simp [List.takeWhile, ha]
  | c :: l, rest, hl, ha => by
    have hc : p c = true := hl c (List.mem_cons_self _ _)
    have ih := takeWhile_append_stop p a l rest
      (fun d hd => hl d (List.mem_cons_of_mem _ hd)) ha
    simp [List.takeWhile, hc, ih]

theorem typeMatch_append (stem ext : Str) (h : '.' ∉ ext) :
    typeMatch (stem ++ '.' :: ext) = some ext := by
  have hmem : '.' ∈ stem ++ '.' :: ext := by simp
  have hrev : (stem ++ '.' :: ext).reverse = ext.reverse ++ '.' :: stem.reverse := by simp
  unfold typeMatch
  rw [if_pos hmem, hrev, takeWhile_append_stop]
  · simp
  · intro c hc
    have : c ≠ '.' := by
      rintro rfl
      exact h (List.mem_reverse.mp hc)
    simpa using this
  · simp

theorem typeMatch_no_dot (srcKey : Str) (h : '.' ∉ srcKey) : typeMatch srcKey = none := by
  simp [typeMatch, h]

theorem inferFileType_append (stem ext : Str) (h : '.' ∉ ext) :
    inferFileType (stem ++ '.' :: ext) = fileTypeOfExt (toLowerCase ext) := by
  simp [inferFileType, typeMatch_append stem ext h]

theorem fileTypeOfExt_unknown (e : Str) (h : e ∉ knownExts) : fileTypeOfExt e = none := by
  simp only [knownExts, List.mem_cons, List.mem_singleton, not_or, List.not_mem_nil,
    not_false_eq_true, and_true] at h
  obtain ⟨h1, h2, h3, h4, h5, h6, h7, h8, h9, h10, h11⟩ := h
  simp only [fileTypeOfExt, if_neg h1, if_neg h2, if_neg h3, if_neg h4, if_neg h5, if_neg h6,
    if_neg h7, if_neg h8, if_neg h9, if_neg h10, if_neg h11]

theorem fileTypeOfExt_image (e : Str) :
    fileTypeOfExt e = some FileType.image ↔
      e = "jpg".toList ∨ e = "png".toList ∨ e = "tif".toList := by
  by_cases h : e ∈ knownExts
  · simp only [knownExts, List.mem_cons, List.mem_singleton, List.not_mem_nil, or_false] at h
    rcases h with rfl | rfl | rfl | rfl | rfl | rfl | rfl | rfl | rfl | rfl | rfl <;> decide
  · have hn := fileTypeOfExt_unknown e h
    constructor
    · intro h'; rw [hn] at h'; cases h'
    · intro h'
      exfalso; apply h
      rcases h' with rfl | rfl | rfl <;> decide

theorem fileTypeOfExt_video (e : Str) :
    fileTypeOfExt e = some FileType.video ↔
      e = "mp4".toList ∨ e = "wav".toList ∨ e = "m4v".toList := by
  by_cases h : e ∈ knownExts
  · simp only [knownExts, List.mem_cons, List.mem_singleton, List.not_mem_nil, or_false] at h
    rcases h with rfl | rfl | rfl | rfl | rfl | rfl | rfl | rfl | rfl | rfl | rfl <;> decide
  · have hn := fileTypeOfExt_unknown e h
    constructor
    · intro h'; rw [hn] at h'; cases h'
    · intro h'
      exfalso; apply h
      rcases h' with rfl | rfl | rfl <;> decide

theorem fileTypeOfExt_pdf (e : Str) :
    fileTypeOfExt e = some FileType.pdf ↔ e = "pdf".toList := by
  by_cases h : e ∈ knownExts
  · simp only [knownExts, List.mem_cons, List.mem_singleton, List.not_mem_nil, or_false] at h
    rcases h with rfl | rfl | rfl | rfl | rfl | rfl | rfl | rfl | rfl | rfl | rfl <;> decide
  · have hn := fileTypeOfExt_unknown e h
    constructor
    · intro h'; rw [hn] at h'; cases h'
    · intro h'
      exfalso; apply h
      subst h'; decide

theorem fileTypeOfExt_office (e : Str) :
    fileTypeOfExt e = some FileType.office ↔
      e = "doc".toList ∨ e = "ppt".toList ∨ e = "docx".toList ∨ e = "pptx".toList := by
  by_cases h : e ∈ knownExts
  · simp only [knownExts, List.mem_cons, List.mem_singleton, List.not_mem_nil, or_false] at h
    rcases h with rfl | rfl | rfl | rfl | rfl | rfl | rfl | rfl | rfl | rfl | rfl <;> decide
  · have hn := fileTypeOfExt_unknown e h
    constructor
    · intro h'; rw [hn] at h'; cases h'
    · intro h'
      exfalso; apply h
      rcases h' with rfl | rfl | rfl | rfl <;> decide

theorem exists_last_dot : ∀ srcKey : Str, '.' ∈ srcKey →
    ∃ stem ext : Str, '.' ∉ ext ∧ srcKey = stem ++ '.' :: ext
  | [], h => by simp at h
  | c :: rest, h => by
    by_cases hr : '.' ∈ rest
    · obtain ⟨stem, ext, hext, heq⟩ := exists_last_dot rest hr
      exact ⟨c :: stem, ext, hext, by rw [heq]; rfl⟩
    · have hc : c = '.' := by
        rcases List.mem_cons.mp h with h' | h'
        · exact h'.symm
        · exact absurd h' hr
      exact ⟨[], rest, hr, by rw [hc]; rfl⟩

theorem handler_of_none (env : Env) (random bucket srcKey : Str)
    (h : inferFileType srcKey = none) : handler env random bucket srcKey = [] := by
  simp [handler, h]

theorem handler_of_some (env : Env) (random bucket srcKey : Str) (fileType : FileType)
    (h : inferFileType srcKey = some fileType) :
    handler env random bucket srcKey = getRegion env random bucket srcKey fileType := by
  simp [handler, h]

/-! ## C1: classification by extension -/

/-- C1: every key with a `'.'` is `stem ++ "." ++ ext` with no `'.'` in `ext`,
so `ext` is the substring after the final `'.'`.  A key with no `'.'` is
skipped (empty trace, no response, no error).  For a key
`stem ++ "." ++ ext` of that form, the handler goes on as Image exactly when
the lower-cased `ext` is jpg, png or tif, as Video exactly when it is mp4,
wav or m4v, as Pdf exactly when it is pdf, as Office exactly when it is doc,
ppt, docx or pptx, and is skipped for every other `ext`.  Two keys whose
extensions agree after lower-casing classify the same. -/
theorem handler_classifies_by_extension (env : Env) (random bucket : Str) :
    (∀ srcKey : Str, '.' ∈ srcKey →
      ∃ stem ext : Str, '.' ∉ ext ∧ srcKey = stem ++ '.' :: ext) ∧
    (∀ srcKey : Str, '.' ∉ srcKey →
      inferFileType srcKey = none ∧ handler env random bucket srcKey = [] ∧
        outcome (handler env random bucket srcKey) = Outcome.silent) ∧
    (∀ stem ext : Str, '.' ∉ ext →
      (inferFileType (stem ++ '.' :: ext) = some FileType.image ↔
        toLowerCase ext = "jpg".toList ∨ toLowerCase ext = "png".toList ∨
          toLowerCase ext = "tif".toList) ∧
      (inferFileType (stem ++ '.' :: ext) = some FileType.video ↔
        toLowerCase ext = "mp4".toList ∨ toLowerCase ext = "wav".toList ∨
          toLowerCase ext = "m4v".toList) ∧
      (inferFileType (stem ++ '.' :: ext) = some FileType.pdf ↔
        toLowerCase ext = "pdf".toList) ∧
      (inferFileType (stem ++ '.' :: ext) = some FileType.office ↔
        toLowerCase ext = "doc".toList ∨ toLowerCase ext = "ppt".toList ∨
          toLowerCase ext = "docx".toList ∨ toLowerCase ext = "pptx".toList) ∧
      (toLowerCase ext ∉ knownExts →
        inferFileType (stem ++ '.' :: ext) = none ∧
        handler env random bucket (stem ++ '.' :: ext) = [] ∧
        outcome (handler env random bucket (stem ++ '.' :: ext)) = Outcome.silent) ∧
      (∀ fileType : FileType, inferFileType (stem ++ '.' :: ext) = some fileType →
        handler env random bucket (stem ++ '.' :: ext) =
          getRegion env random bucket (stem ++ '.' :: ext) fileType)) ∧
    (∀ stem stem' ext ext' : Str, '.' ∉ ext → '.' ∉ ext' →
      toLowerCase ext = toLowerCase ext' →
      inferFileType (stem ++ '.' :: ext) = inferFileType (stem' ++ '.' :: ext')) := by
  refine ⟨exists_last_dot, ?_, ?_, ?_⟩
  · intro srcKey h
    have hn : inferFileType srcKey = none := by
      simp [inferFileType, typeMatch_no_dot srcKey h]
    exact ⟨hn, handler_of_none env random bucket srcKey hn,
      by rw [handler_of_none env random bucket srcKey hn]; rfl⟩
  · intro stem ext h
    rw [inferFileType_append stem ext h]
    refine ⟨fileTypeOfExt_image _, fileTypeOfExt_video _, fileTypeOfExt_pdf _,
      fileTypeOfExt_office _, ?_, ?_⟩
    · intro hu
      have hn : inferFileType (stem ++ '.' :: ext) = none := by
        rw [inferFileType_append stem ext h]
        exact fileTypeOfExt_unknown _ hu
      exact ⟨fileTypeOfExt_unknown _ hu, handler_of_none env random bucket _ hn,
        by rw [handler_of_none env random bucket _ hn]; rfl⟩
    · intro fileType hft
      apply handler_of_some
      rw [inferFileType_append stem ext h]
      exact hft
  · intro stem stem' ext ext' h h' heq
    rw [inferFileType_append stem ext h, inferFileType_append stem' ext' h', heq]

/-- C1 (witness): `photo.PNG` is an Image like `photo.png`; `notes.txt` and
`README` are skipped with an empty trace. -/
theorem handler_classifies_by_extension_witness :
    (inferFileType "photo.PNG".toList = some FileType.image ↔
      toLowerCase "PNG".toList = "jpg".toList ∨ toLowerCase "PNG".toList = "png".toList ∨
        toLowerCase "PNG".toList = "tif".toList) ∧
    inferFileType "photo.PNG".toList = inferFileType "photo.png".toList ∧
    handler (Env.allOk 1000 ⟨400, 100⟩) "r".toList "b".toList "notes.txt".toList = [] ∧
    handler (Env.allOk 1000 ⟨400, 100⟩) "r".toList "b".toList "README".toList = [] :=
  have h := handler_classifies_by_extension (Env.allOk 1000 ⟨400, 100⟩) "r".toList "b".toList
  ⟨(h.2.2.1 "photo".toList "PNG".toList (by decide)).1,
   h.2.2.2 "photo".toList "photo".toList "PNG".toList "png".toList
     (by decide) (by decide) (by decide),
   ((h.2.2.1 "notes".toList "txt".toList (by decide)).2.2.2.2.1 (by decide)).2.1,
   (h.2.1 "README".toList (by decide)).2.1⟩

/-! ## C2 and C10: the scaling arithmetic of `transform` -/

theorem scalingFactor_pos (size : Size) (hw : 0 < size.width) (hh : 0 < size.height) :
    0 < scalingFactor size := by
  have hw' : (0 : ℚ) < size.width := by exact_mod_cast hw
  have hh' : (0 : ℚ) < size.height := by exact_mod_cast hh
  unfold scalingFactor MAX_WIDTH MAX_HEIGHT
  exact lt_min (div_pos (by norm_num) hw') (div_pos (by norm_num) hh')

theorem thumbWidth_le (size : Size) (hw : 0 < size.width) :
    thumbWidth size ≤ 200 := by
  have hw' : (0 : ℚ) < size.width := by exact_mod_cast hw
  unfold thumbWidth scalingFactor MAX_WIDTH MAX_HEIGHT
  calc min (((200 : ℕ) : ℚ) / size.width) (((200 : ℕ) : ℚ) / size.height) * (size.width : ℚ)
      ≤ (((200 : ℕ) : ℚ) / size.width) * size.width :=
        mul_le_mul_of_nonneg_right (min_le_left _ _) hw'.le
    _ = 200 := by field_simp

theorem thumbHeight_le (size : Size) (hh : 0 < size.height) :
    thumbHeight size ≤ 200 := by
  have hh' : (0 : ℚ) < size.height := by exact_mod_cast hh
  unfold thumbHeight scalingFactor MAX_WIDTH MAX_HEIGHT
  calc min (((200 : ℕ) : ℚ) / size.width) (((200 : ℕ) : ℚ) / size.height) * (size.height : ℚ)
      ≤ (((200 : ℕ) : ℚ) / size.height) * size.height :=
        mul_le_mul_of_nonneg_right (min_le_right _ _) hh'.le
    _ = 200 := by field_simp

theorem transform_resize (env : Env) (fileType : FileType) (path : Str) (size : Size)
    (h : env.gmSize path = Except.ok size) :
    transform env fileType path =
      Effect.gmSize path :: Effect.resize path (thumbWidth size) (thumbHeight size) ::
        finalCallback env (recordSize fileType size) (some path)
          (env.toBuffer path (thumbWidth size) (thumbHeight size)) := by
  simp [transform, h]

/-- C2: scaling law of `transform` in exact rational arithmetic.  For a
source of positive width and height, `scale = min(200/width, 200/height)`,
the resize arguments are `scale*width` and `scale*height`, their ratio is
`width/height`, and when `scale ≤ 1` both are at most 200.  These are the
arguments of the `resize` call `transform` issues.  A 400×100 source gives
scale 1/2 and a 200×50 thumbnail. -/
theorem scaling_law (size : Size) (hw : 0 < size.width) (hh : 0 < size.height) :
    scalingFactor size = min ((200 : ℚ) / size.width) ((200 : ℚ) / size.height) ∧
    thumbWidth size = scalingFactor size * size.width ∧
    thumbHeight size = scalingFactor size * size.height ∧
    thumbWidth size / thumbHeight size = (size.width : ℚ) / (size.height : ℚ) ∧
    (scalingFactor size ≤ 1 → thumbWidth size ≤ 200 ∧ thumbHeight size ≤ 200) ∧
    (∀ (env : Env) (fileType : FileType) (path : Str), env.gmSize path = Except.ok size →
      Effect.resize path (thumbWidth size) (thumbHeight size) ∈ transform env fileType path) ∧
    scalingFactor ⟨400, 100⟩ = 1 / 2 ∧ thumbWidth ⟨400, 100⟩ = 200 ∧
      thumbHeight ⟨400, 100⟩ = 50 := by
  have hs := scalingFactor_pos size hw hh
  refine ⟨by simp [scalingFactor, MAX_WIDTH, MAX_HEIGHT], rfl, rfl, ?_, ?_, ?_, ?_, ?_, ?_⟩
  · unfold thumbWidth thumbHeight
    exact mul_div_mul_left _ _ hs.ne'
  · intro _
    exact ⟨thumbWidth_le size hw, thumbHeight_le size hh⟩
  · intro env fileType path h
    rw [transform_resize env fileType path size h]
    simp
  · norm_num [scalingFactor, MAX_WIDTH, MAX_HEIGHT]
  · norm_num [thumbWidth, scalingFactor, MAX_WIDTH, MAX_HEIGHT]
  · norm_num [thumbHeight, scalingFactor, MAX_WIDTH, MAX_HEIGHT]

/-- C2 (witness): a 400×100 source. -/
theorem scaling_law_witness :
    thumbWidth ⟨400, 100⟩ / thumbHeight ⟨400, 100⟩ = ((400 : ℕ) : ℚ) / ((100 : ℕ) : ℚ) ∧
    scalingFactor ⟨400, 100⟩ = 1 / 2 ∧ thumbWidth ⟨400, 100⟩ ≤ 200 ∧
    scalingFactor ⟨400, 100⟩ = 1 / 2 ∧ thumbWidth ⟨400, 100⟩ = 200 ∧
      thumbHeight ⟨400, 100⟩ = 50 :=
  have h := scaling_law ⟨400, 100⟩ (by decide) (by decide)
  ⟨h.2.2.2.1, h.2.2.2.2.2.2.1, (h.2.2.2.2.1 (by rw [h.2.2.2.2.2.2.1]; norm_num)).1,
    h.2.2.2.2.2.2⟩

/-- C10: no clamp on the scale.  For a source with `0 < width < 200` and
`0 < height < 200`, `transform` computes
`scale = min(200/width, 200/height) > 1` and resizes to
`scale*width > width` by `scale*height > height`, in the source's
proportions: a source smaller than the box is upscaled. -/
theorem small_source_is_upscaled (size : Size)
    (hw : 0 < size.width) (hw' : size.width < 200)
    (hh : 0 < size.height) (hh' : size.height < 200) :
    scalingFactor size = min ((200 : ℚ) / size.width) ((200 : ℚ) / size.height) ∧
    1 < scalingFactor size ∧
    (size.width : ℚ) < thumbWidth size ∧
    (size.height : ℚ) < thumbHeight size ∧
    thumbWidth size / thumbHeight size = (size.width : ℚ) / (size.height : ℚ) ∧
    (∀ (env : Env) (fileType : FileType) (path : Str), env.gmSize path = Except.ok size →
      Effect.resize path (thumbWidth size) (thumbHeight size) ∈ transform env fileType path) := by
  have hwq : (0 : ℚ) < size.width := by exact_mod_cast hw
  have hhq : (0 : ℚ) < size.height := by exact_mod_cast hh
  have hwq' : (size.width : ℚ) < 200 := by exact_mod_cast hw'
  have hhq' : (size.height : ℚ) < 200 := by exact_mod_cast hh'
  have hdef : scalingFactor size = min ((200 : ℚ) / size.width) ((200 : ℚ) / size.height) := by
    simp [scalingFactor, MAX_WIDTH, MAX_HEIGHT]
  have h1 : 1 < scalingFactor size := by
    rw [hdef]
    exact lt_min ((one_lt_div hwq).mpr hwq') ((one_lt_div hhq).mpr hhq')
  have hs : 0 < scalingFactor size := lt_trans one_pos h1
  refine ⟨hdef, h1, ?_, ?_, ?_, ?_⟩
  · unfold thumbWidth
    exact lt_mul_of_one_lt_left hwq h1
  · unfold thumbHeight
    exact lt_mul_of_one_lt_left hhq h1
  · unfold thumbWidth thumbHeight
    exact mul_div_mul_left _ _ hs.ne'
  · intro env fileType path h
    rw [transform_resize env fileType path size h]
    simp

/-- C10 (witness): a 100×50 source is scaled up. -/
theorem small_source_is_upscaled_witness :
    (1 : ℚ) < scalingFactor ⟨100, 50⟩ ∧ (((100 : ℕ) : ℚ)) < thumbWidth ⟨100, 50⟩ ∧
      (((50 : ℕ) : ℚ)) < thumbHeight ⟨100, 50⟩ :=
  have h := small_source_is_upscaled ⟨100, 50⟩ (by decide) (by decide) (by decide) (by decide)
  ⟨h.2.1, h.2.2.1, h.2.2.2.1⟩


/-! ## C3: the size policy of `checkSize` -/

theorem officeToPdf_head (env : Env) (random region bucket srcKey : Str) (fileType : FileType) :
    (fileType = FileType.office → ∃ rest, officeToPdf env random region bucket srcKey fileType =
      Effect.lambdaInvoke bucket srcKey (destination random) :: rest) ∧
    (fileType ≠ FileType.office → ∃ rest, officeToPdf env random region bucket srcKey fileType =
      Effect.download bucket srcKey (localPath srcKey) none :: rest) := by
  constructor
  · intro h
    subst h
    simp [officeToPdf]
  · intro h
    simp [officeToPdf, h, downloadFile]

theorem dimensionsOnly_effects (env : Env) (region bucket srcKey : Str) :
    ∀ e ∈ dimensionsOnly env region bucket srcKey,
      e = Effect.download bucket srcKey (localPath srcKey) (some partialRange) ∨
      e = Effect.gmSize (localPath srcKey) ∨ e = Effect.throw ∨
      ∃ err result, e = Effect.done err result := by
  intro e he
  unfold dimensionsOnly at he
  cases hd : env.download region bucket srcKey (localPath srcKey) (some partialRange) <;>
    cases hs : env.gmSize (localPath srcKey) <;>
    simp [hd, hs, readDimensions] at he <;> aesop

/-- C3 (amended): size policy of `checkSize`, for a request whose metadata
fetch succeeds with size `n` and `MAX_SIZE = 31457280`.  If `n ≤ MAX_SIZE`
the pipeline goes on with `officeToPdf` (the conversion call for Office, the
full download otherwise).  If `n > MAX_SIZE` the trace ends in this stage:
no full download, no conversion call, no resize.  For an Image the outcome
is the dimensions-only object (no `fileType`, no `buffer`) when the ranged
download and the size read succeed, and the error `download` passes to its
callback when writing the local file fails; for Video, Pdf and Office
nothing more happens and there is no response and no error. -/
theorem checkSize_policy (env : Env) (random bucket srcKey region : Str)
    (fileType : FileType) (n : Nat)
    (hft : inferFileType srcKey = some fileType)
    (hregion : env.getBucketLocation bucket = Except.ok region)
    (hhead : env.headObject region bucket srcKey = Except.ok n) :
    (n ≤ MAX_SIZE →
      handler env random bucket srcKey =
        Effect.getBucketLocation bucket :: Effect.headObject bucket srcKey ::
          officeToPdf env random region bucket srcKey fileType ∧
      (fileType = FileType.office →
        Effect.lambdaInvoke bucket srcKey (destination random) ∈
          handler env random bucket srcKey) ∧
      (fileType ≠ FileType.office →
        Effect.download bucket srcKey (localPath srcKey) none ∈
          handler env random bucket srcKey)) ∧
    (MAX_SIZE < n →
      handler env random bucket srcKey =
        Effect.getBucketLocation bucket :: Effect.headObject bucket srcKey ::
          (if fileType = FileType.image then dimensionsOnly env region bucket srcKey else []) ∧
      (∀ b k p, Effect.download b k p none ∉ handler env random bucket srcKey) ∧
      (∀ b k d, Effect.lambdaInvoke b k d ∉ handler env random bucket srcKey) ∧
      (∀ p w h, Effect.resize p w h ∉ handler env random bucket srcKey) ∧
      (fileType = FileType.image →
        env.download region bucket srcKey (localPath srcKey) (some partialRange) =
            Download.close →
        ∀ size, env.gmSize (localPath srcKey) = Except.ok size →
          outcome (handler env random bucket srcKey) =
            Outcome.done none (some { width := some size.width, height := some size.height,
                                      fileType := none, buffer := none })) ∧
      (fileType = FileType.image →
        ∀ err, env.download region bucket srcKey (localPath srcKey) (some partialRange) =
            Download.writeError err →
          outcome (handler env random bucket srcKey) = Outcome.done (some err) none) ∧
      (fileType ≠ FileType.image →
        handler env random bucket srcKey =
          [Effect.getBucketLocation bucket, Effect.headObject bucket srcKey] ∧
        outcome (handler env random bucket srcKey) = Outcome.silent)) := by
  have hh := handler_of_some env random bucket srcKey fileType hft
  constructor
  · intro hn
    have hlt : ¬ n > MAX_SIZE := not_lt.mpr hn
    have heq : handler env random bucket srcKey =
        Effect.getBucketLocation bucket :: Effect.headObject bucket srcKey ::
          officeToPdf env random region bucket srcKey fileType := by
      rw [hh]
      simp [getRegion, checkSize, hregion, hhead, hlt]
    refine ⟨heq, ?_, ?_⟩
    · intro ho
      obtain ⟨rest, hr⟩ := (officeToPdf_head env random region bucket srcKey fileType).1 ho
      rw [heq, hr]; simp
    · intro ho
      obtain ⟨rest, hr⟩ := (officeToPdf_head env random region bucket srcKey fileType).2 ho
      rw [heq, hr]; simp
  · intro hn
    have hgt : n > MAX_SIZE := hn
    have heq : handler env random bucket srcKey =
        Effect.getBucketLocation bucket :: Effect.headObject bucket srcKey ::
          (if fileType = FileType.image then dimensionsOnly env region bucket srcKey
            else []) := by
      rw [hh]
      simp [getRegion, checkSize, hregion, hhead, hgt]
    have hmem : ∀ e ∈ handler env random bucket srcKey,
        e = Effect.getBucketLocation bucket ∨ e = Effect.headObject bucket srcKey ∨
        e = Effect.download bucket srcKey (localPath srcKey) (some partialRange) ∨
        e = Effect.gmSize (localPath srcKey) ∨ e = Effect.throw ∨
        ∃ err result, e = Effect.done err result := by
      intro e he
      rw [heq] at he
      simp only [List.mem_cons] at he
      rcases he with h | h | h
      · exact Or.inl h
      · exact Or.inr (Or.inl h)
      · right; right
        by_cases hi : fileType = FileType.image
        · rw [if_pos hi] at h
          exact dimensionsOnly_effects env region bucket srcKey e h
        · rw [if_neg hi] at h
          cases h
    refine ⟨heq, ?_, ?_, ?_, ?_, ?_, ?_⟩
    · intro b k p hc
      rcases hmem _ hc with h | h | h | h | h | ⟨_, _, h⟩ <;> simp at h
    · intro b k d hc
      rcases hmem _ hc with h | h | h | h | h | ⟨_, _, h⟩ <;> simp at h
    · intro p w h' hc
      rcases hmem _ hc with h | h | h | h | h | ⟨_, _, h⟩ <;> simp at h
    · intro hi hd size hs
      rw [heq, if_pos hi]
      simp [dimensionsOnly, readDimensions, hd, hs, outcome, ReturnObj.empty]
    · intro hi err hd
      rw [heq, if_pos hi]
      simp [dimensionsOnly, hd, outcome]
    · intro hi
      rw [heq, if_neg hi]
      exact ⟨rfl, rfl⟩

/-- C3 (counterexample): `huge.png`, one byte over the threshold, with a
metadata fetch that succeeds and a ranged download whose local write fails
with `ENOSPC`: `download` calls back with the error and the request ends
with it, not with a dimensions-only result. -/
theorem oversized_image_failed_local_write :
    inferFileType "huge.png".toList = some FileType.image ∧
    ((Env.allOk (MAX_SIZE + 1) ⟨4000, 3000⟩).failDownload "ENOSPC".toList).headObject
      "eu-west-1".toList "media".toList "huge.png".toList = Except.ok (MAX_SIZE + 1) ∧
    MAX_SIZE < MAX_SIZE + 1 ∧
    ((Env.allOk (MAX_SIZE + 1) ⟨4000, 3000⟩).failDownload "ENOSPC".toList).download
      "eu-west-1".toList "media".toList "huge.png".toList (localPath "huge.png".toList)
      (some partialRange) = Download.writeError "ENOSPC".toList ∧
    outcome (handler ((Env.allOk (MAX_SIZE + 1) ⟨4000, 3000⟩).failDownload "ENOSPC".toList)
      "req-1".toList "media".toList "huge.png".toList) =
        Outcome.done (some "ENOSPC".toList) none ∧
    ¬ ∃ width height, outcome (handler
      ((Env.allOk (MAX_SIZE + 1) ⟨4000, 3000⟩).failDownload "ENOSPC".toList)
      "req-1".toList "media".toList "huge.png".toList) =
        Outcome.done none (some { width := some width, height := some height,
                                  fileType := none, buffer := none }) := by
  have h : outcome (handler
      ((Env.allOk (MAX_SIZE + 1) ⟨4000, 3000⟩).failDownload "ENOSPC".toList)
      "req-1".toList "media".toList "huge.png".toList) =
        Outcome.done (some "ENOSPC".toList) none := by decide
  refine ⟨by decide, rfl, by decide, rfl, h, ?_⟩
  rintro ⟨width, height, h'⟩
  rw [h] at h'
  cases h'

/-- C3 (witness): `photo.png` of exactly `MAX_SIZE` bytes is downloaded in
full; `huge.png` of `MAX_SIZE + 1` bytes gives the dimensions-only result;
`clip.mp4` of `MAX_SIZE + 1` bytes stops after the metadata fetch. -/
theorem checkSize_policy_witness :
    Effect.download "media".toList "photo.png".toList (localPath "photo.png".toList) none ∈
      handler (Env.allOk MAX_SIZE ⟨400, 100⟩) "req-1".toList "media".toList
        "photo.png".toList ∧
    outcome (handler (Env.allOk (MAX_SIZE + 1) ⟨4000, 3000⟩) "req-1".toList "media".toList
        "huge.png".toList) =
      Outcome.done none (some { width := some 4000, height := some 3000,
                                fileType := none, buffer := none }) ∧
    handler (Env.allOk (MAX_SIZE + 1) ⟨4000, 3000⟩) "req-1".toList "media".toList
        "clip.mp4".toList =
      [Effect.getBucketLocation "media".toList,
       Effect.headObject "media".toList "clip.mp4".toList] :=
  ⟨((checkSize_policy (Env.allOk MAX_SIZE ⟨400, 100⟩) "req-1".toList "media".toList
      "photo.png".toList "eu-west-1".toList FileType.image MAX_SIZE
      (by decide) rfl rfl).1 (Nat.le_refl _)).2.2 (by decide),
   ((checkSize_policy (Env.allOk (MAX_SIZE + 1) ⟨4000, 3000⟩) "req-1".toList "media".toList
      "huge.png".toList "eu-west-1".toList FileType.image (MAX_SIZE + 1)
      (by decide) rfl rfl).2 (Nat.lt_succ_self _)).2.2.2.2.1 rfl rfl ⟨4000, 3000⟩ rfl,
   (((checkSize_policy (Env.allOk (MAX_SIZE + 1) ⟨4000, 3000⟩) "req-1".toList "media".toList
      "clip.mp4".toList "eu-west-1".toList FileType.video (MAX_SIZE + 1)
      (by decide) rfl rfl).2 (Nat.lt_succ_self _)).2.2.2.2.2.2 (by decide)).1⟩

/-! ## C6: the failure path of the final callback -/

theorem finalCallback_error (env : Env) (returnObj : ReturnObj) (downloadPath : Option Str)
    (err : Err) :
    finalCallback env returnObj downloadPath (Except.error err) =
      [Effect.done (some err) none] := rfl

theorem outcome_finalCallback_ok (env : Env) (returnObj : ReturnObj) (p : Str)
    (buffer : Str) :
    outcome (finalCallback env returnObj (some p) (Except.ok buffer)) =
      Outcome.done none (some { returnObj with
        fileType := some THUMB_EXT, buffer := some (env.base64 buffer) }) := by
  cases h : env.unlinkSync p <;> simp [finalCallback, h, outcome]

theorem errorSkipsCleanup_finalCallback (env : Env) (returnObj : ReturnObj) (p : Str)
    (r : Except Err Str) : ErrorSkipsCleanup (finalCallback env returnObj (some p) r) := by
  intro err result h
  cases r with
  | error e =>
    rw [finalCallback_error] at h ⊢
    simp [outcome] at h
    simp [h.2]
  | ok buffer =>
    rw [outcome_finalCallback_ok] at h
    simp at h

theorem errorSkipsCleanup_transform (env : Env) (fileType : FileType) (p : Str) :
    ErrorSkipsCleanup (transform env fileType p) := by
  intro err result h
  unfold transform at h ⊢
  cases hs : env.gmSize p with
  | error e => simp [hs, outcome] at h
  | ok size =>
    simp only [hs, outcome] at h ⊢
    have := errorSkipsCleanup_finalCallback env (recordSize fileType size) p
      (env.toBuffer p (thumbWidth size) (thumbHeight size)) err result h
    simpa using this


theorem errorSkipsCleanup_cons (a : Effect) (t : List Effect)
    (ho : outcome (a :: t) = outcome t) (hu : ∀ p, a ≠ Effect.unlinkSync p)
    (h : ErrorSkipsCleanup t) : ErrorSkipsCleanup (a :: t) := by
  intro err result hr
  rw [ho] at hr
  obtain ⟨h1, h2⟩ := h err result hr
  refine ⟨h1, fun p hp => ?_⟩
  rcases List.mem_cons.mp hp with hp | hp
  · exact hu p hp.symm
  · exact h2 p hp

theorem errorSkipsCleanup_done (err : Err) :
    ErrorSkipsCleanup [Effect.done (some err) none] := by
  intro e result h
  simp [outcome] at h
  simp [h.2]

theorem errorSkipsCleanup_throw : ErrorSkipsCleanup [Effect.throw] := by
  intro e result h
  simp [outcome] at h

theorem errorSkipsCleanup_nil : ErrorSkipsCleanup [] := by
  intro e result h
  simp [outcome] at h

theorem errorSkipsCleanup_preProcessDone (env : Env) (fileType : FileType) (p : Str)
    (origFile : Option Str) (err : Option Err) :
    ErrorSkipsCleanup (preProcessDone env fileType p origFile err) := by
  unfold preProcessDone
  cases origFile with
  | some f =>
    apply errorSkipsCleanup_cons _ _ rfl (by simp)
    cases env.unlink f with
    | some e => exact errorSkipsCleanup_done e
    | none => exact errorSkipsCleanup_transform env fileType p
  | none =>
    cases err with
    | some e => exact errorSkipsCleanup_done e
    | none => exact errorSkipsCleanup_transform env fileType p

theorem errorSkipsCleanup_pdfToImage (env : Env) (fileType : FileType) (p : Str)
    (origFile : Option Str) : ErrorSkipsCleanup (pdfToImage env fileType p origFile) := by
  unfold pdfToImage
  split
  · exact errorSkipsCleanup_preProcessDone _ _ _ _ _
  · exact errorSkipsCleanup_cons _ _ rfl (by simp) (errorSkipsCleanup_preProcessDone _ _ _ _ _)

theorem errorSkipsCleanup_preProcess (env : Env) (fileType : FileType) (p : Str) :
    ErrorSkipsCleanup (preProcess env fileType p) := by
  unfold preProcess videoToImage
  split
  · exact errorSkipsCleanup_pdfToImage _ _ _ _
  · apply errorSkipsCleanup_cons _ _ rfl (by simp)
    split
    · exact errorSkipsCleanup_preProcessDone _ _ _ _ _
    · exact errorSkipsCleanup_pdfToImage _ _ _ _

theorem errorSkipsCleanup_downloadFile (env : Env) (region bucket srcKey : Str)
    (fileType : FileType) :
    ErrorSkipsCleanup (downloadFile env region bucket srcKey fileType) := by
  unfold downloadFile
  apply errorSkipsCleanup_cons _ _ rfl (by simp)
  split
  · exact errorSkipsCleanup_throw
  · exact errorSkipsCleanup_done _
  · exact errorSkipsCleanup_preProcess _ _ _

theorem errorSkipsCleanup_officeToPdf (env : Env) (random region bucket srcKey : Str)
    (fileType : FileType) :
    ErrorSkipsCleanup (officeToPdf env random region bucket srcKey fileType) := by
  unfold officeToPdf
  split
  · exact errorSkipsCleanup_downloadFile _ _ _ _ _
  · apply errorSkipsCleanup_cons _ _ rfl (by simp)
    split
    · exact errorSkipsCleanup_throw
    · exact errorSkipsCleanup_downloadFile _ _ _ _ _

theorem errorSkipsCleanup_dimensionsOnly (env : Env) (region bucket srcKey : Str) :
    ErrorSkipsCleanup (dimensionsOnly env region bucket srcKey) := by
  intro err result h
  unfold dimensionsOnly at h ⊢
  cases hd : env.download region bucket srcKey (localPath srcKey) (some partialRange) <;>
    cases hs : env.gmSize (localPath srcKey) <;>
    simp [hd, hs, readDimensions, outcome] at h ⊢ <;> simp [h]

theorem errorSkipsCleanup_handler (env : Env) (random bucket srcKey : Str) :
    ErrorSkipsCleanup (handler env random bucket srcKey) := by
  unfold handler
  split
  · exact errorSkipsCleanup_nil
  · unfold getRegion
    apply errorSkipsCleanup_cons _ _ rfl (by simp)
    split
    · exact errorSkipsCleanup_done _
    · unfold checkSize
      apply errorSkipsCleanup_cons _ _ rfl (by simp)
      split
      · exact errorSkipsCleanup_done _
      · split
        · split
          · exact errorSkipsCleanup_dimensionsOnly _ _ _ _
          · exact errorSkipsCleanup_nil
        · exact errorSkipsCleanup_officeToPdf _ _ _ _ _ _

/-- C6 (counterexample): `photo.png` is downloaded to `/tmp/photo.png` and
the resize/encode step fails.  The trace ends with `context.done(err)` and
has no `fs.unlinkSync` of the working file, which the success path has. -/
theorem encode_error_leaves_working_file :
    handler ((Env.allOk 1000 ⟨400, 100⟩).failToBuffer "encode failed".toList)
        "req-1".toList "media".toList "photo.png".toList =
      [Effect.getBucketLocation "media".toList,
       Effect.headObject "media".toList "photo.png".toList,
       Effect.download "media".toList "photo.png".toList "/tmp/photo.png".toList none,
       Effect.gmSize "/tmp/photo.png".toList,
       Effect.resize "/tmp/photo.png".toList (thumbWidth ⟨400, 100⟩) (thumbHeight ⟨400, 100⟩),
       Effect.done (some "encode failed".toList) none] ∧
    Effect.unlinkSync "/tmp/photo.png".toList ∉
      handler ((Env.allOk 1000 ⟨400, 100⟩).failToBuffer "encode failed".toList)
        "req-1".toList "media".toList "photo.png".toList ∧
    Effect.unlinkSync "/tmp/photo.png".toList ∈
      handler (Env.allOk 1000 ⟨400, 100⟩)
        "req-1".toList "media".toList "photo.png".toList := by
  have h1 : handler ((Env.allOk 1000 ⟨400, 100⟩).failToBuffer "encode failed".toList)
        "req-1".toList "media".toList "photo.png".toList =
      [Effect.getBucketLocation "media".toList,
       Effect.headObject "media".toList "photo.png".toList,
       Effect.download "media".toList "photo.png".toList "/tmp/photo.png".toList none,
       Effect.gmSize "/tmp/photo.png".toList,
       Effect.resize "/tmp/photo.png".toList (thumbWidth ⟨400, 100⟩) (thumbHeight ⟨400, 100⟩),
       Effect.done (some "encode failed".toList) none] := by rfl
  have h2 : handler (Env.allOk 1000 ⟨400, 100⟩)
        "req-1".toList "media".toList "photo.png".toList =
      [Effect.getBucketLocation "media".toList,
       Effect.headObject "media".toList "photo.png".toList,
       Effect.download "media".toList "photo.png".toList "/tmp/photo.png".toList none,
       Effect.gmSize "/tmp/photo.png".toList,
       Effect.resize "/tmp/photo.png".toList (thumbWidth ⟨400, 100⟩) (thumbHeight ⟨400, 100⟩),
       Effect.unlinkSync "/tmp/photo.png".toList,
       Effect.done none
         (some ⟨some 400, some 100, some "png".toList, some "base64:PNG-BYTES".toList⟩)] := by rfl
  refine ⟨h1, ?_, ?_⟩
  · rw [h1]; simp
  · rw [h2]; simp

/-- C6 (amended): whenever a request ends with an error passed to
`context.done`, no result accompanies it and the trace has no
`fs.unlinkSync`: the final callback deletes the working file on the success
path only. -/
theorem failure_path_skips_cleanup (env : Env) (random bucket srcKey : Str)
    (err : Err) (result : Option ReturnObj)
    (h : outcome (handler env random bucket srcKey) = Outcome.done (some err) result) :
    result = none ∧ ∀ p, Effect.unlinkSync p ∉ handler env random bucket srcKey :=
  errorSkipsCleanup_handler env random bucket srcKey err result h

/-- C6 (witness): `photo.png` with a failing resize/encode step. -/
theorem failure_path_skips_cleanup_witness :
    (none : Option ReturnObj) = none ∧
    ∀ p, Effect.unlinkSync p ∉
      handler ((Env.allOk 1000 ⟨400, 100⟩).failToBuffer "encode failed".toList)
        "req-1".toList "media".toList "photo.png".toList :=
  failure_path_skips_cleanup ((Env.allOk 1000 ⟨400, 100⟩).failToBuffer "encode failed".toList)
    "req-1".toList "media".toList "photo.png".toList "encode failed".toList none (by decide)

/-! ## C7: recorded dimensions -/

theorem transform_thumbnail (env : Env) (fileType : FileType) (p : Str) (obj : ReturnObj)
    (h : outcome (transform env fileType p) = Outcome.done none (some obj)) :
    ∃ size buffer, env.gmSize p = Except.ok size ∧
      env.toBuffer p (thumbWidth size) (thumbHeight size) = Except.ok buffer ∧
      obj = { recordSize fileType size with
        fileType := some THUMB_EXT, buffer := some (env.base64 buffer) } := by
  unfold transform at h
  cases hs : env.gmSize p with
  | error e => simp [hs, outcome] at h
  | ok size =>
    simp only [hs, outcome] at h
    cases hb : env.toBuffer p (thumbWidth size) (thumbHeight size) with
    | error e => simp [hb, finalCallback, outcome] at h
    | ok buffer =>
      rw [hb, outcome_finalCallback_ok] at h
      refine ⟨size, buffer, rfl, hb, ?_⟩
      simp at h
      exact h.symm

theorem noDims_transform (env : Env) (fileType : FileType) (p : Str)
    (hft : fileType ≠ FileType.image) : NoDims (transform env fileType p) := by
  intro obj h
  obtain ⟨size, buffer, _, _, rfl⟩ := transform_thumbnail env fileType p obj h
  simp [recordSize, hft, ReturnObj.empty]

theorem noDims_cons (a : Effect) (t : List Effect)
    (ho : outcome (a :: t) = outcome t) (h : NoDims t) : NoDims (a :: t) := by
  intro obj hr
  rw [ho] at hr
  exact h obj hr

theorem noDims_done (err : Err) : NoDims [Effect.done (some err) none] := by
  intro obj h
  simp [outcome] at h

theorem noDims_throw : NoDims [Effect.throw] := by
  intro obj h
  simp [outcome] at h

theorem noDims_nil : NoDims [] := by
  intro obj h
  simp [outcome] at h

theorem noDims_preProcessDone (env : Env) (fileType : FileType) (p : Str)
    (origFile : Option Str) (err : Option Err) (hft : fileType ≠ FileType.image) :
    NoDims (preProcessDone env fileType p origFile err) := by
  unfold preProcessDone
  cases origFile with
  | some f =>
    apply noDims_cons _ _ rfl
    cases env.unlink f with
    | some e => exact noDims_done e
    | none => exact noDims_transform env fileType p hft
  | none =>
    cases err with
    | some e => exact noDims_done e
    | none => exact noDims_transform env fileType p hft

theorem noDims_pdfToImage (env : Env) (fileType : FileType) (p : Str)
    (origFile : Option Str) (hft : fileType ≠ FileType.image) :
    NoDims (pdfToImage env fileType p origFile) := by
  unfold pdfToImage
  split
  · exact noDims_preProcessDone _ _ _ _ _ hft
  · exact noDims_cons _ _ rfl (noDims_preProcessDone _ _ _ _ _ hft)

theorem noDims_preProcess (env : Env) (fileType : FileType) (p : Str)
    (hft : fileType ≠ FileType.image) : NoDims (preProcess env fileType p) := by
  unfold preProcess videoToImage
  split
  · exact noDims_pdfToImage _ _ _ _ hft
  · apply noDims_cons _ _ rfl
    split
    · exact noDims_preProcessDone _ _ _ _ _ hft
    · exact noDims_pdfToImage _ _ _ _ hft

theorem noDims_downloadFile (env : Env) (region bucket srcKey : Str)
    (fileType : FileType) (hft : fileType ≠ FileType.image) :
    NoDims (downloadFile env region bucket srcKey fileType) := by
  unfold downloadFile
  apply noDims_cons _ _ rfl
  split
  · exact noDims_throw
  · exact noDims_done _
  · exact noDims_preProcess _ _ _ hft

theorem noDims_officeToPdf (env : Env) (random region bucket srcKey : Str)
    (fileType : FileType) (hft : fileType ≠ FileType.image) :
    NoDims (officeToPdf env random region bucket srcKey fileType) := by
  unfold officeToPdf
  split
  · exact noDims_downloadFile _ _ _ _ _ hft
  · apply noDims_cons _ _ rfl
    split
    · exact noDims_throw
    · exact noDims_downloadFile _ _ _ _ _ (by decide)

theorem noDims_getRegion (env : Env) (random bucket srcKey : Str)
    (fileType : FileType) (hft : fileType ≠ FileType.image) :
    NoDims (getRegion env random bucket srcKey fileType) := by
  unfold getRegion
  apply noDims_cons _ _ rfl
  split
  · exact noDims_done _
  · unfold checkSize
    apply noDims_cons _ _ rfl
    split
    · exact noDims_done _
    · rw [if_neg hft]
      split
      · exact noDims_nil
      · exact noDims_officeToPdf _ _ _ _ _ _ hft

theorem preProcess_image (env : Env) (p : Str) :
    preProcess env FileType.image p = transform env FileType.image p := by
  simp [preProcess, videoToImage, pdfToImage, preProcessDone]

theorem image_thumbnail (env : Env) (random bucket srcKey : Str) (obj : ReturnObj)
    (h : outcome (getRegion env random bucket srcKey FileType.image) =
      Outcome.done none (some obj))
    (hb : obj.buffer ≠ none) :
    ∃ size, env.gmSize (localPath srcKey) = Except.ok size ∧
      obj.width = some size.width ∧ obj.height = some size.height ∧
      Effect.resize (localPath srcKey) (thumbWidth size) (thumbHeight size) ∈
        getRegion env random bucket srcKey FileType.image := by
  unfold getRegion at h ⊢
  cases hr : env.getBucketLocation bucket with
  | error e => simp [hr, finalCallback, outcome] at h
  | ok region =>
    simp only [hr] at h ⊢
    unfold checkSize at h ⊢
    cases hh : env.headObject region bucket srcKey with
    | error e => simp [hh, finalCallback, outcome] at h
    | ok n =>
      simp only [hh] at h ⊢
      by_cases hn : n > MAX_SIZE
      · exfalso
        simp only [hn, if_true, dimensionsOnly, outcome] at h
        cases hd : env.download region bucket srcKey (localPath srcKey) (some partialRange) <;>
          cases hs : env.gmSize (localPath srcKey) <;>
          simp [hd, hs, readDimensions, outcome, ReturnObj.empty] at h
        apply hb
        rw [← h]
      · simp only [hn, if_false, officeToPdf, downloadFile, preProcess_image] at h ⊢
        cases hd : env.download region bucket srcKey (localPath srcKey) none with
        | readError e => simp [hd, outcome] at h
        | writeError e => simp [hd, finalCallback, outcome] at h
        | close =>
          simp [hd, outcome] at h
          obtain ⟨size, buffer, hs, _, rfl⟩ := transform_thumbnail env _ _ obj h
          refine ⟨size, hs, by simp [recordSize], by simp [recordSize], ?_⟩
          simp [hd, transform, hs]

theorem thumbWidth_400_100 : thumbWidth ⟨400, 100⟩ = 200 := by
  norm_num [thumbWidth, scalingFactor, MAX_WIDTH, MAX_HEIGHT]

theorem thumbHeight_400_100 : thumbHeight ⟨400, 100⟩ = 50 := by
  norm_num [thumbHeight, scalingFactor, MAX_WIDTH, MAX_HEIGHT]

/-- C7: for a request that ends with a thumbnail result (a result with a
`buffer`), the result has `width` and `height` exactly when the key was
classified as Image; they are then the width and height `gm` read from the
downloaded file, before scaling, while the `resize` call gets the scaled
values.  For every other classification both are absent. -/
theorem thumbnail_dimensions_iff_image (env : Env) (random bucket srcKey : Str)
    (obj : ReturnObj)
    (h : outcome (handler env random bucket srcKey) = Outcome.done none (some obj))
    (hb : obj.buffer ≠ none) :
    ((obj.width ≠ none ∧ obj.height ≠ none) ↔ inferFileType srcKey = some FileType.image) ∧
    (inferFileType srcKey = some FileType.image →
      ∃ size, env.gmSize (localPath srcKey) = Except.ok size ∧
        obj.width = some size.width ∧ obj.height = some size.height ∧
        Effect.resize (localPath srcKey) (thumbWidth size) (thumbHeight size) ∈
          handler env random bucket srcKey) ∧
    (inferFileType srcKey ≠ some FileType.image →
      obj.width = none ∧ obj.height = none) := by
  have himg : inferFileType srcKey = some FileType.image →
      ∃ size, env.gmSize (localPath srcKey) = Except.ok size ∧
        obj.width = some size.width ∧ obj.height = some size.height ∧
        Effect.resize (localPath srcKey) (thumbWidth size) (thumbHeight size) ∈
          handler env random bucket srcKey := by
    intro hi
    rw [handler_of_some env random bucket srcKey _ hi] at h ⊢
    exact image_thumbnail env random bucket srcKey obj h hb
  have hnot : inferFileType srcKey ≠ some FileType.image →
      obj.width = none ∧ obj.height = none := by
    intro hi
    cases hft : inferFileType srcKey with
    | none =>
      rw [handler_of_none env random bucket srcKey hft] at h
      simp [outcome] at h
    | some fileType =>
      rw [handler_of_some env random bucket srcKey _ hft] at h
      have hne : fileType ≠ FileType.image := by
        rintro rfl
        exact hi hft
      exact noDims_getRegion env random bucket srcKey fileType hne obj h
  refine ⟨⟨?_, ?_⟩, himg, hnot⟩
  · rintro ⟨hw, _⟩
    by_contra hi
    exact hw (hnot hi).1
  · intro hi
    obtain ⟨size, _, hw, hh, _⟩ := himg hi
    rw [hw, hh]
    simp

/-- C7 (witness): `photo.png` with intrinsic 400×100 yields width 400 and
height 100 next to `resize(200, 50)`; `clip.mp4` yields neither field. -/
theorem thumbnail_dimensions_iff_image_witness :
    outcome (handler (Env.allOk 1000 ⟨400, 100⟩) "req-1".toList "media".toList
        "photo.png".toList) =
      Outcome.done none
        (some ⟨some 400, some 100, some "png".toList, some "base64:PNG-BYTES".toList⟩) ∧
    Effect.resize "/tmp/photo.png".toList 200 50 ∈
      handler (Env.allOk 1000 ⟨400, 100⟩) "req-1".toList "media".toList "photo.png".toList ∧
    outcome (handler (Env.allOk 1000 ⟨640, 480⟩) "req-1".toList "media".toList
        "clip.mp4".toList) =
      Outcome.done none
        (some ⟨none, none, some "png".toList, some "base64:PNG-BYTES".toList⟩) ∧
    ((none : Option Nat) = none ∧ (none : Option Nat) = none) := by
  have hp : outcome (handler (Env.allOk 1000 ⟨400, 100⟩) "req-1".toList "media".toList
        "photo.png".toList) =
      Outcome.done none
        (some ⟨some 400, some 100, some "png".toList, some "base64:PNG-BYTES".toList⟩) := by
    decide
  have hv : outcome (handler (Env.allOk 1000 ⟨640, 480⟩) "req-1".toList "media".toList
        "clip.mp4".toList) =
      Outcome.done none
        (some ⟨none, none, some "png".toList, some "base64:PNG-BYTES".toList⟩) := by
    decide
  obtain ⟨size, hs, hw, _, hr⟩ :=
    (thumbnail_dimensions_iff_image (Env.allOk 1000 ⟨400, 100⟩) "req-1".toList
      "media".toList "photo.png".toList _ hp (by decide)).2.1 (by decide)
  have hsize : size = ⟨400, 100⟩ := by
    have : (Except.ok ⟨400, 100⟩ : Except Err Size) = Except.ok size := hs
    injection this with h'
    exact h'.symm
  subst hsize
  rw [thumbWidth_400_100, thumbHeight_400_100] at hr
  exact ⟨hp, hr, hv,
    (thumbnail_dimensions_iff_image (Env.allOk 1000 ⟨640, 480⟩) "req-1".toList
      "media".toList "clip.mp4".toList _ hv (by decide)).2.2 (by decide)⟩

/-! ## C4, C5: the inner final callback of `preProcess` (line 210) -/

/-- C4 (code at the failing input): `clip.mp4` with ffmpeg failing.  The
origin file is unlinked and `transform` runs on the `.png` path; the ffmpeg
error never reaches `context.done`.  When the size read fails the request
crashes, when it succeeds a thumbnail is returned.  The same holds for
`doc.pdf` with a failing rasterization. -/
theorem conversion_error_is_dropped :
    handler (((Env.allOk 1000 ⟨640, 480⟩).failFfmpeg "ffmpeg: exit code 1".toList).failGmSize
        "ENOENT".toList) "req-1".toList "media".toList "clip.mp4".toList =
      [Effect.getBucketLocation "media".toList,
       Effect.headObject "media".toList "clip.mp4".toList,
       Effect.download "media".toList "clip.mp4".toList "/tmp/clip.mp4".toList none,
       Effect.ffmpeg "/tmp/clip.mp4".toList "/tmp/clip.mp4.png".toList,
       Effect.unlink "/tmp/clip.mp4".toList,
       Effect.gmSize "/tmp/clip.mp4.png".toList,
       Effect.throw] ∧
    outcome (handler (((Env.allOk 1000 ⟨640, 480⟩).failFfmpeg
        "ffmpeg: exit code 1".toList).failGmSize "ENOENT".toList)
        "req-1".toList "media".toList "clip.mp4".toList) = Outcome.crash ∧
    outcome (handler (((Env.allOk 1000 ⟨640, 480⟩).failFfmpeg
        "ffmpeg: exit code 1".toList).failGmSize "ENOENT".toList)
        "req-1".toList "media".toList "clip.mp4".toList) ≠
      Outcome.done (some "ffmpeg: exit code 1".toList) none ∧
    outcome (handler ((Env.allOk 1000 ⟨640, 480⟩).failFfmpeg "ffmpeg: exit code 1".toList)
        "req-1".toList "media".toList "clip.mp4".toList) =
      Outcome.done none
        (some ⟨none, none, some "png".toList, some "base64:PNG-BYTES".toList⟩) ∧
    handler (((Env.allOk 1000 ⟨640, 480⟩).failGmWrite "convert: exit code 1".toList).failGmSize
        "ENOENT".toList) "req-1".toList "media".toList "doc.pdf".toList =
      [Effect.getBucketLocation "media".toList,
       Effect.headObject "media".toList "doc.pdf".toList,
       Effect.download "media".toList "doc.pdf".toList "/tmp/doc.pdf".toList none,
       Effect.gmWrite "/tmp/doc.pdf[0]".toList "/tmp/doc.pdf.png".toList,
       Effect.unlink "/tmp/doc.pdf".toList,
       Effect.gmSize "/tmp/doc.pdf.png".toList,
       Effect.throw] := by
  refine ⟨by decide, by decide, by decide, by decide, by decide⟩

/-- C5 (code at the failing input): `clip.mp4` with ffmpeg succeeding and
`fs.unlink` of the origin file failing with `EPERM`.  The request ends with
`EPERM` and `transform` never runs, while the same request with a working
`fs.unlink` returns the thumbnail.  A throwing `fs.unlinkSync` of the final
working file does not change the outcome. -/
theorem origin_unlink_error_aborts :
    handler ((Env.allOk 1000 ⟨640, 480⟩).failUnlink "EPERM".toList)
        "req-1".toList "media".toList "clip.mp4".toList =
      [Effect.getBucketLocation "media".toList,
       Effect.headObject "media".toList "clip.mp4".toList,
       Effect.download "media".toList "clip.mp4".toList "/tmp/clip.mp4".toList none,
       Effect.ffmpeg "/tmp/clip.mp4".toList "/tmp/clip.mp4.png".toList,
       Effect.unlink "/tmp/clip.mp4".toList,
       Effect.done (some "EPERM".toList) none] ∧
    outcome (handler ((Env.allOk 1000 ⟨640, 480⟩).failUnlink "EPERM".toList)
        "req-1".toList "media".toList "clip.mp4".toList) =
      Outcome.done (some "EPERM".toList) none ∧
    outcome (handler (Env.allOk 1000 ⟨640, 480⟩)
        "req-1".toList "media".toList "clip.mp4".toList) =
      Outcome.done none
        (some ⟨none, none, some "png".toList, some "base64:PNG-BYTES".toList⟩) ∧
    outcome (handler ((Env.allOk 1000 ⟨640, 480⟩).failUnlinkSync "EPERM".toList)
        "req-1".toList "media".toList "clip.mp4".toList) =
      outcome (handler (Env.allOk 1000 ⟨640, 480⟩)
        "req-1".toList "media".toList "clip.mp4".toList) := by
  refine ⟨by decide, by decide, by decide, by decide⟩

/-! ## C8: the range of the ranged download -/

/-- C8 (code at the failing input): for `huge.png`, one byte over the
threshold, the download is requested with `bytes=0-102400`.  Both ends are
inclusive, so the range selects 102401 bytes, offset 102400 included, one
more than 100 KiB. -/
theorem range_header_selects_102401_bytes :
    handler (Env.allOk (MAX_SIZE + 1) ⟨4000, 3000⟩) "req-1".toList "media".toList
        "huge.png".toList =
      [Effect.getBucketLocation "media".toList,
       Effect.headObject "media".toList "huge.png".toList,
       Effect.download "media".toList "huge.png".toList "/tmp/huge.png".toList
         (some { first := 0, last := 102400 }),
       Effect.gmSize "/tmp/huge.png".toList,
       Effect.done none (some { width := some 4000, height := some 3000,
                                fileType := none, buffer := none })] ∧
    partialRange = { first := 0, last := 102400 } ∧
    partialRange.length = 102401 ∧
    partialRange.contains 102400 = true ∧
    partialRange.length ≠ 100 * 1024 := by
  refine ⟨by decide, by decide, by decide, by decide, by decide⟩

/-! ## C9: local paths and the random identifier -/

/-- C9 (counterexample): two requests with different random identifiers and
the same key `a/clip.mp4` write to the same two local files. -/
theorem same_key_same_local_paths :
    "req-1".toList ≠ "req-2".toList ∧
    writtenPaths (handler (Env.allOk 1000 ⟨640, 480⟩) "req-1".toList "media".toList
        "a/clip.mp4".toList) = ["/tmp/a-clip.mp4".toList, "/tmp/a-clip.mp4.png".toList] ∧
    writtenPaths (handler (Env.allOk 1000 ⟨640, 480⟩) "req-2".toList "media".toList
        "a/clip.mp4".toList) = ["/tmp/a-clip.mp4".toList, "/tmp/a-clip.mp4.png".toList] := by
  refine ⟨by decide, by decide, by decide⟩

theorem getRegion_ignores_random (env : Env) (random random' bucket srcKey : Str)
    (fileType : FileType) (h : fileType ≠ FileType.office) :
    getRegion env random bucket srcKey fileType =
      getRegion env random' bucket srcKey fileType := by
  simp [getRegion, checkSize, officeToPdf, h]

theorem writtenPaths_finalCallback (env : Env) (returnObj : ReturnObj)
    (downloadPath : Option Str) (r : Except Err Str) :
    writtenPaths (finalCallback env returnObj downloadPath r) = [] := by
  cases r with
  | error e => rfl
  | ok buffer =>
    cases downloadPath with
    | none => rfl
    | some p => cases h : env.unlinkSync p <;> simp [finalCallback, h, writtenPaths]

theorem writtenPaths_transform (env : Env) (fileType : FileType) (p : Str) :
    writtenPaths (transform env fileType p) = [] := by
  unfold transform
  cases env.gmSize p with
  | error e => rfl
  | ok size => simp [writtenPaths, writtenPaths_finalCallback]

theorem writtenPaths_preProcessDone (env : Env) (fileType : FileType) (p : Str)
    (origFile : Option Str) (err : Option Err) :
    writtenPaths (preProcessDone env fileType p origFile err) = [] := by
  unfold preProcessDone
  cases origFile with
  | some f =>
    cases h : env.unlink f <;>
      simp [h, writtenPaths, writtenPaths_transform, writtenPaths_finalCallback]
  | none =>
    cases err <;> simp [writtenPaths_transform, writtenPaths_finalCallback]

theorem writtenPaths_preProcess_pdf (env : Env) (p : Str) :
    writtenPaths (preProcess env FileType.pdf p) = [p ++ ".".toList ++ THUMB_EXT] := by
  have h : preProcess env FileType.pdf p =
      Effect.gmWrite (p ++ "[0]".toList) (p ++ ".".toList ++ THUMB_EXT) ::
        preProcessDone env FileType.pdf (p ++ ".".toList ++ THUMB_EXT) (some p)
          (env.gmWrite (p ++ "[0]".toList) (p ++ ".".toList ++ THUMB_EXT)) := by
    simp [preProcess, videoToImage, pdfToImage]
  rw [h]
  show (p ++ ".".toList ++ THUMB_EXT) :: writtenPaths _ = _
  rw [writtenPaths_preProcessDone]

theorem writtenPaths_downloadFile_pdf (env : Env) (region bucket srcKey : Str) :
    ∀ p ∈ writtenPaths (downloadFile env region bucket srcKey FileType.pdf),
      p = localPath srcKey ∨ p = localPath srcKey ++ ".".toList ++ THUMB_EXT := by
  intro p hp
  unfold downloadFile at hp
  change p ∈ localPath srcKey :: writtenPaths _ at hp
  rcases List.mem_cons.mp hp with h | h
  · exact Or.inl h
  · right
    cases hd : env.download region bucket srcKey (localPath srcKey) none with
    | readError e =>
      rw [hd] at h
      simp [writtenPaths] at h
    | writeError e =>
      rw [hd] at h
      simp [writtenPaths_finalCallback] at h
    | close =>
      rw [hd] at h
      simp only [writtenPaths_preProcess_pdf, List.mem_singleton] at h
      exact h

theorem writtenPaths_handler_office (env : Env) (random bucket srcKey : Str)
    (ho : inferFileType srcKey = some FileType.office) :
    ∀ p ∈ writtenPaths (handler env random bucket srcKey),
      ∃ respKey, env.lambdaInvoke bucket srcKey (destination random) = Except.ok respKey ∧
        (p = localPath respKey ∨ p = localPath respKey ++ ".".toList ++ THUMB_EXT) := by
  intro p hp
  rw [handler_of_some env random bucket srcKey _ ho] at hp
  unfold getRegion at hp
  change p ∈ writtenPaths _ at hp
  cases hr : env.getBucketLocation bucket with
  | error e =>
    rw [hr] at hp
    simp [writtenPaths, writtenPaths_finalCallback] at hp
  | ok region =>
    rw [hr] at hp
    change p ∈ writtenPaths (checkSize env random region bucket srcKey FileType.office) at hp
    unfold checkSize at hp
    cases hh : env.headObject region bucket srcKey with
    | error e =>
      rw [hh] at hp
      simp [writtenPaths, writtenPaths_finalCallback] at hp
    | ok n =>
      rw [hh] at hp
      by_cases hn : n > MAX_SIZE
      · simp [hn, writtenPaths] at hp
      · have hstep : writtenPaths (Effect.headObject bucket srcKey ::
            (match (Except.ok n : Except Err Nat) with
              | Except.error err =>
                finalCallback env ReturnObj.empty none (Except.error err)
              | Except.ok contentLength =>
                if contentLength > MAX_SIZE then
                  if FileType.office = FileType.image then
                    dimensionsOnly env region bucket srcKey
                  else []
                else officeToPdf env random region bucket srcKey FileType.office)) =
            writtenPaths (officeToPdf env random region bucket srcKey FileType.office) := by
          show writtenPaths (if n > MAX_SIZE then _ else _) = _
          rw [if_neg hn]
        rw [hstep] at hp
        unfold officeToPdf at hp
        rw [if_neg (by decide)] at hp
        change p ∈ writtenPaths _ at hp
        cases hl : env.lambdaInvoke bucket srcKey (destination random) with
        | error e =>
          rw [hl] at hp
          simp [writtenPaths] at hp
        | ok respKey =>
          rw [hl] at hp
          exact ⟨respKey, rfl, writtenPaths_downloadFile_pdf env region bucket respKey p hp⟩

theorem replaceSlashes_append (a b : Str) :
    replaceSlashes (a ++ b) = replaceSlashes a ++ replaceSlashes b := by
  simp [replaceSlashes]

theorem replaceSlashes_of_no_slash (a : Str) (h : '/' ∉ a) : replaceSlashes a = a := by
  unfold replaceSlashes
  conv_rhs => rw [← List.map_id a]
  apply List.map_congr_left
  intro c hc
  have : c ≠ '/' := by
    rintro rfl
    exact h hc
  simp [this]

theorem localPath_under_destination (random name : Str) (h : '/' ∉ random) :
    localPath (destination random ++ name) =
      (tmpDir ++ replaceSlashes (scratch ++ "pdf/".toList)) ++ random ++
        replaceSlashes ("/".toList ++ name) := by
  unfold localPath destination
  simp only [replaceSlashes_append, replaceSlashes_of_no_slash random h, List.append_assoc]

theorem append_random_ne (pre random random' tail tail' : Str)
    (hlen : random.length = random'.length) (hne : random ≠ random') :
    pre ++ random ++ tail ≠ pre ++ random' ++ tail' := by
  intro h
  rw [List.append_assoc, List.append_assoc] at h
  have h1 := List.append_cancel_left h
  exact hne (List.append_inj h1 hlen).1

theorem allOk_answers_under_destination (n : Nat) (size : Size) (bucket srcKey : Str) :
    ∀ d respKey, (Env.allOk n size).lambdaInvoke bucket srcKey d = Except.ok respKey →
      ∃ name, respKey = d ++ name := by
  intro d respKey h
  have h' : (Except.ok (d ++ "out.pdf".toList) : Except Err Str) = Except.ok respKey := h
  injection h' with h''
  exact ⟨"out.pdf".toList, h''.symm⟩

/-- C9 (amended): for a key that is not classified as Office, the whole
trace, and so every local path written, is the same for any two random
identifiers.  For two requests with Office keys and different random
identifiers of equal length without `/`, whose conversion Lambda answers
with a key under the destination it was given, every local path of one
request differs from every local path of the other, also for the same
container and key. -/
theorem local_paths_and_random (env env' : Env)
    (random random' bucket bucket' srcKey srcKey' : Str) (hne : random ≠ random') :
    (inferFileType srcKey ≠ some FileType.office →
      handler env random bucket srcKey = handler env random' bucket srcKey ∧
      writtenPaths (handler env random bucket srcKey) =
        writtenPaths (handler env random' bucket srcKey)) ∧
    (inferFileType srcKey = some FileType.office →
      inferFileType srcKey' = some FileType.office →
      random.length = random'.length → '/' ∉ random → '/' ∉ random' →
      (∀ d respKey, env.lambdaInvoke bucket srcKey d = Except.ok respKey →
        ∃ name, respKey = d ++ name) →
      (∀ d respKey, env'.lambdaInvoke bucket' srcKey' d = Except.ok respKey →
        ∃ name, respKey = d ++ name) →
      ∀ p ∈ writtenPaths (handler env random bucket srcKey),
        ∀ p' ∈ writtenPaths (handler env' random' bucket' srcKey'), p ≠ p') := by
  constructor
  · intro h
    have heq : handler env random bucket srcKey = handler env random' bucket srcKey := by
      unfold handler
      cases hft : inferFileType srcKey with
      | none => rfl
      | some fileType =>
        have hno : fileType ≠ FileType.office := by
          rintro rfl
          exact h hft
        exact getRegion_ignores_random env random random' bucket srcKey fileType hno
    exact ⟨heq, by rw [heq]⟩
  · intro ho ho' hlen hs hs' hc hc' p hp p' hp'
    obtain ⟨respKey, hk, hpath⟩ := writtenPaths_handler_office env random bucket srcKey ho p hp
    obtain ⟨respKey', hk', hpath'⟩ :=
      writtenPaths_handler_office env' random' bucket' srcKey' ho' p' hp'
    obtain ⟨name, rfl⟩ := hc _ _ hk
    obtain ⟨name', rfl⟩ := hc' _ _ hk'
    have hshape : ∃ tail, p = (tmpDir ++ replaceSlashes (scratch ++ "pdf/".toList)) ++
        random ++ tail := by
      rw [localPath_under_destination random name hs] at hpath
      rcases hpath with h | h
      · exact ⟨_, h⟩
      · exact ⟨replaceSlashes ("/".toList ++ name) ++ (".".toList ++ THUMB_EXT), by
          rw [h]; simp only [List.append_assoc]⟩
    have hshape' : ∃ tail, p' = (tmpDir ++ replaceSlashes (scratch ++ "pdf/".toList)) ++
        random' ++ tail := by
      rw [localPath_under_destination random' name' hs'] at hpath'
      rcases hpath' with h | h
      · exact ⟨_, h⟩
      · exact ⟨replaceSlashes ("/".toList ++ name') ++ (".".toList ++ THUMB_EXT), by
          rw [h]; simp only [List.append_assoc]⟩
    obtain ⟨tail, rfl⟩ := hshape
    obtain ⟨tail', rfl⟩ := hshape'
    exact append_random_ne (tmpDir ++ replaceSlashes (scratch ++ "pdf/".toList))
      random random' tail tail' hlen hne

/-- C9 (witness): `a/clip.mp4` gives the same trace under `req-1` and
`req-2`; `slides.pptx` writes under `scratch-pdf-req-1-` and
`scratch-pdf-req-2-`, with no path in common. -/
theorem local_paths_and_random_witness :
    handler (Env.allOk 1000 ⟨640, 480⟩) "req-1".toList "media".toList "a/clip.mp4".toList =
      handler (Env.allOk 1000 ⟨640, 480⟩) "req-2".toList "media".toList "a/clip.mp4".toList ∧
    writtenPaths (handler (Env.allOk 1000 ⟨640, 480⟩) "req-1".toList "media".toList
        "slides.pptx".toList) =
      ["/tmp/scratch-pdf-req-1-out.pdf".toList, "/tmp/scratch-pdf-req-1-out.pdf.png".toList] ∧
    writtenPaths (handler (Env.allOk 1000 ⟨640, 480⟩) "req-2".toList "media".toList
        "slides.pptx".toList) =
      ["/tmp/scratch-pdf-req-2-out.pdf".toList, "/tmp/scratch-pdf-req-2-out.pdf.png".toList] ∧
    ∀ p ∈ writtenPaths (handler (Env.allOk 1000 ⟨640, 480⟩) "req-1".toList "media".toList
        "slides.pptx".toList),
      ∀ p' ∈ writtenPaths (handler (Env.allOk 1000 ⟨640, 480⟩) "req-2".toList
        "media".toList "slides.pptx".toList), p ≠ p' :=
  ⟨((local_paths_and_random (Env.allOk 1000 ⟨640, 480⟩) (Env.allOk 1000 ⟨640, 480⟩)
      "req-1".toList "req-2".toList "media".toList "media".toList "a/clip.mp4".toList
      "a/clip.mp4".toList (by decide)).1 (by decide)).1,
   by decide, by decide,
   (local_paths_and_random (Env.allOk 1000 ⟨640, 480⟩) (Env.allOk 1000 ⟨640, 480⟩)
      "req-1".toList "req-2".toList "media".toList "media".toList "slides.pptx".toList
      "slides.pptx".toList (by decide)).2 (by decide) (by decide) (by decide) (by decide)
      (by decide) (allOk_answers_under_destination _ _ _ _)
      (allOk_answers_under_destination _ _ _ _)⟩

end CreateThumbnail
